import Mathlib

/-!
Shallow embedding of drivers/gpu/ion/ion_system_heap.c (ION system heap and
system-contig heap) on a 32-bit ARM kernel: `unsigned long` and pointers are
32 bits, PAGE_SIZE = 4096, PAGE_SHIFT = 12.

Kernel services used by the driver (kmalloc, kzalloc, alloc_page,
sg_alloc_table, vm_insert_page, vmalloc_to_page, virt_to_page, vm_map_ram)
are external collaborators; each is modelled by an oracle parameter giving
the outcome of the corresponding call.  Page handles and pointers are
machine words (Nat below 2^32).

The source stores an untyped pointer in buffer->priv_virt and reinterprets
it per operation: the system heap writes the address of a kmalloc-obtained
array of page pointers, the contig heap writes the address of a
kzalloc-obtained data block.  A Buffer therefore records both the raw
pointer value and the machine words stored at that address, so that each
operation can be translated exactly as the source reads them.
-/

set_option autoImplicit false

namespace Ion

/-- PAGE_SIZE of this kernel (4 KiB pages). -/
def PAGE_SIZE : Nat := 4096

/-- PAGE_SHIFT: PAGE_SIZE = 2 ^ PAGE_SHIFT. -/
def PAGE_SHIFT : Nat := 12

/-- Modulus of 32-bit `unsigned long` (and pointer) arithmetic. -/
def U32 : Nat := 2 ^ 32

/-- `int n_pages = PAGE_ALIGN(size) / PAGE_SIZE`.  `PAGE_ALIGN(x)` is
`((x + PAGE_SIZE - 1) & PAGE_MASK)` on a 32-bit `unsigned long`, so the sum
is taken mod 2^32 before the division clears the low bits. -/
def nPages (size : Nat) : Nat := ((size + (PAGE_SIZE - 1)) % U32) / PAGE_SIZE

/-- A buffer as this driver sees it: the requested byte length stored in
`buffer->size`, the raw pointer value stored in `buffer->priv_virt`, and the
machine words stored at that address (word `i` is `*((u32 *)priv_virt + i)`,
reads beyond the object the driver wrote there yield whatever word the model
was built with). -/
structure Buffer where
  size : Nat
  privVirt : Nat
  privWords : Nat → Nat

/-- Result of an allocate call.  `fault` marks an execution that stores
through a null pointer (undefined behavior in the source, fatal in the
kernel); it is distinct from an error return. -/
inductive AllocResult where
  | ok (b : Buffer)
  | err (e : Int)
  | fault

/-- Observable outcome of `ion_system_heap_allocate`: the returned value
plus the page-ownership trace (pages handed out by `alloc_page`, pages given
back to `__free_page`, and whether the slot array was passed to `kfree`). -/
structure AllocOutcome where
  res : AllocResult
  acquiredPages : List Nat
  freedPages : List Nat
  slotFreed : Bool

/-- The page acquisition loop of `ion_system_heap_allocate`
(`for (i = 0; i < n_pages; i++) { page_list[i] = alloc_page(gfp_mask); ... }`):
`allocPage j` is the handle returned by the `alloc_page` call for index `j`
(`none` models a NULL return).  Returns the pages obtained in index order and
`some i` if the loop hit a NULL at index `i` (`none` if it completed). -/
def allocPages (allocPage : Nat → Option Nat) : Nat → Nat → List Nat × Option Nat
  | 0, _ => ([], none)
  | k + 1, start =>
    match allocPage start with
    | none => ([], some start)
    | some p =>
      let rest := allocPages allocPage k (start + 1)
      (p :: rest.1, rest.2)

/-- `ion_system_heap_allocate` (vmalloc_ops.allocate).  `slot` is the pointer
returned by `kmalloc(n_pages * sizeof(void *), GFP_KERNEL)` (`none` models a
NULL return).  The source never tests that pointer: when it is NULL and
n_pages > 0 the first loop iteration evaluates `alloc_page(gfp_mask)` and
then stores the result through the null `page_list` pointer, which is
undefined behavior (`fault`).  On a page failure at index i the source jumps
to `out:`, frees pages i-1 down to 0, frees the slot array and returns
-ENOMEM.  On success it stores the array pointer into buffer->priv_virt and
returns 0. -/
def ion_system_heap_allocate (slot : Option Nat) (allocPage : Nat → Option Nat)
    (size : Nat) : AllocOutcome :=
  let n := nPages size
  match slot with
  | none =>
    if n = 0 then
      { res := .ok ⟨size, 0, fun _ => 0⟩, acquiredPages := [], freedPages := [],
        slotFreed := false }
    else
      { res := .fault, acquiredPages := (allocPage 0).toList, freedPages := [],
        slotFreed := false }
  | some a =>
    match allocPages allocPage n 0 with
    | (ps, none) =>
      { res := .ok ⟨size, a, fun i => ps.getD i 0⟩, acquiredPages := ps,
        freedPages := [], slotFreed := false }
    | (ps, some _) =>
      { res := .err (-12), acquiredPages := ps, freedPages := ps.reverse,
        slotFreed := true }

/-- `ion_system_heap_free`: reads n_pages page pointers back out of the
array behind buffer->priv_virt and passes each to `__free_page` (the slot
array itself then goes to `kfree`).  Returns the list of page handles
released, in loop order. -/
def ion_system_heap_free (b : Buffer) : List Nat :=
  (List.range (nPages b.size)).map b.privWords

/-- One scatter-gather entry as set by `sg_set_page(sg, page, length, offset)`. -/
structure SgEntry where
  page : Nat
  length : Nat
  offset : Nat
  deriving DecidableEq

/-- Allocation and release events of a map_dma call, in program order:
`acqTable` = kzalloc of the sg_table structure, `acqEntries` = sg_alloc_table
obtaining the entry table, `relEntries` = sg_free_table, `relTable` = kfree of
the sg_table structure. -/
inductive DmaAct where
  | acqTable
  | acqEntries
  | relEntries
  | relTable
  deriving DecidableEq

/-- The two resources a map_dma call can hold. -/
inductive Resource where
  | table
  | entries
  deriving DecidableEq

/-- Resources acquired in an event trace, in order. -/
def acqsOf (t : List DmaAct) : List Resource :=
  t.filterMap fun a =>
    match a with
    | .acqTable => some .table
    | .acqEntries => some .entries
    | _ => none

/-- Resources released in an event trace, in order. -/
def relsOf (t : List DmaAct) : List Resource :=
  t.filterMap fun a =>
    match a with
    | .relTable => some .table
    | .relEntries => some .entries
    | _ => none

/-- Return value of a map_dma call: a table of entries, or an ERR_PTR. -/
inductive DmaRes where
  | ok (entries : List SgEntry)
  | error (e : Int)
  deriving DecidableEq

/-- Result and event trace of a map_dma call. -/
structure DmaOutcome where
  res : DmaRes
  trace : List DmaAct
  deriving DecidableEq

/-- Whether a map_dma call returned an ERR_PTR. -/
def DmaOutcome.failed (o : DmaOutcome) : Bool :=
  match o.res with
  | .error _ => true
  | .ok _ => false

/-- The entry-building loop of `ion_system_heap_map_dma`: starting from
`vaddr = buffer->priv_virt` it translates `vaddr` through `vmalloc_to_page`
(oracle `v2p`, partial: `none` models a NULL page), emits one entry of
length PAGE_SIZE and offset 0 per page, and advances `vaddr` by PAGE_SIZE
(pointer arithmetic mod 2^32).  `none` overall models the `!page` failure. -/
def dmaEntries (v2p : Nat → Option Nat) (vaddr : Nat) : Nat → Option (List SgEntry)
  | 0 => some []
  | n + 1 =>
    match v2p (vaddr % U32) with
    | none => none
    | some p =>
      match dmaEntries v2p (vaddr + PAGE_SIZE) n with
      | none => none
      | some es => some (⟨p, PAGE_SIZE, 0⟩ :: es)

/-- `ion_system_heap_map_dma` (vmalloc_ops.map_dma).  `tableOk` is whether
`kzalloc(sizeof(struct sg_table), GFP_KERNEL)` succeeded; `sgRet` is the
return of `sg_alloc_table(table, npages, GFP_KERNEL)` (0 = success).  Note
the source reads `void *vaddr = buffer->priv_virt` and walks it through
`vmalloc_to_page`: it treats the slot-array pointer stored by allocate as if
it were a kernel-virtual mapping of the buffer contents, and never reads the
page pointers the array holds. -/
def ion_system_heap_map_dma (tableOk : Bool) (sgRet : Int)
    (v2p : Nat → Option Nat) (b : Buffer) : DmaOutcome :=
  if tableOk then
    if sgRet = 0 then
      match dmaEntries v2p b.privVirt (nPages b.size) with
      | some es => { res := .ok es, trace := [.acqTable, .acqEntries] }
      | none =>
        { res := .error (-12),
          trace := [.acqTable, .acqEntries, .relEntries, .relTable] }
    else { res := .error sgRet, trace := [.acqTable, .relTable] }
  else { res := .error (-12), trace := [] }

/-- `ion_system_heap_unmap_dma` (used by both dispatch tables):
`if (buffer->sg_table) sg_free_table(buffer->sg_table); kfree(buffer->sg_table);`.
`sgTable` is the pointer value of buffer->sg_table (`none` = NULL).  A null
pointer skips sg_free_table via the guard, and `kfree(NULL)` releases
nothing, so the returned release trace is empty in that case. -/
def ion_system_heap_unmap_dma (sgTable : Option Nat) : List DmaAct :=
  match sgTable with
  | none => []
  | some _ => [.relEntries, .relTable]

/-- `ion_system_heap_map_kernel` (used by both dispatch tables): casts
buffer->priv_virt to `struct page **`, reads n_pages page pointers from the
words stored there, and hands `(page_list, n_pages)` to
`vm_map_ram(page_list, n_pages, -1, PAGE_KERNEL)`.  Returns that request. -/
def ion_system_heap_map_kernel_request (b : Buffer) : List Nat × Nat :=
  ((List.range (nPages b.size)).map b.privWords, nPages b.size)

/-- `ion_system_heap_unmap_kernel`: the page count passed to
`vm_unmap_ram(buffer->vaddr, n_pages)`. -/
def ion_system_heap_unmap_kernel_count (b : Buffer) : Nat :=
  nPages b.size

/-- Result of the map_user loop: `ok` = returned 0, `err e` = a
`vm_insert_page` call returned `e`, `running` = the modelling fuel ran out
with the do-while loop still executing. -/
inductive MapUserResult where
  | ok
  | err (e : Int)
  | running
  deriving DecidableEq

/-- The do-while loop of `ion_system_heap_map_user`.  `insertRes k` is the
return value of the k-th `vm_insert_page` call (0 = success).  Each attempt
is recorded as (list index read, uaddr, page word read), i.e. the arguments
of `vm_insert_page(vma, uaddr, page_list[i])`.  The loop body runs before
the `while (usize > 0)` test; `uaddr += PAGE_SIZE` and `usize -= PAGE_SIZE`
are 32-bit unsigned operations.  The source never increments the index
variable `i`, so the recursive call passes `i` unchanged. -/
def mapUserLoop (insertRes : Nat → Int) (w : Nat → Nat) :
    Nat → Nat → Nat → Nat → Nat → List (Nat × Nat × Nat) × MapUserResult
  | 0, _, _, _, _ => ([], .running)
  | fuel + 1, i, uaddr, usize, k =>
    if insertRes k = 0 then
      if 0 < (usize + (U32 - PAGE_SIZE)) % U32 then
        ((i, uaddr, w i) ::
          (mapUserLoop insertRes w fuel i ((uaddr + PAGE_SIZE) % U32)
            ((usize + (U32 - PAGE_SIZE)) % U32) (k + 1)).1,
         (mapUserLoop insertRes w fuel i ((uaddr + PAGE_SIZE) % U32)
            ((usize + (U32 - PAGE_SIZE)) % U32) (k + 1)).2)
      else ([(i, uaddr, w i)], .ok)
    else ([(i, uaddr, w i)], .err (insertRes k))

/-- `ion_system_heap_map_user` (vmalloc_ops.map_user).  `uaddr = vma->vm_start`
and `usize = vma->vm_end - vma->vm_start` (an `unsigned long`, so below 2^32).
The guard is `usize > (n_pages << PAGE_SHIFT)`; since n_pages < 2^20 (see
`nPages_lt`) the shifted value equals `n_pages * PAGE_SIZE` under the 32-bit
wrap the compiler applies, so the comparison is translated exactly.  On
rejection the function returns -EINVAL with no `vm_insert_page` call made;
otherwise it enters the do-while loop with `i = 0`. -/
def ion_system_heap_map_user (insertRes : Nat → Int) (b : Buffer)
    (uaddr usize fuel : Nat) : List (Nat × Nat × Nat) × MapUserResult :=
  if nPages b.size * PAGE_SIZE < usize then ([], .err (-22))
  else mapUserLoop insertRes b.privWords fuel 0 uaddr usize 0

/-- Outcome of `ion_system_contig_heap_allocate`: result plus the number of
bytes obtained from `kzalloc` (len on success, 0 on failure). -/
structure ContigOutcome where
  res : AllocResult
  acquiredBytes : Nat

/-- `ion_system_contig_heap_allocate` (kmalloc_ops.allocate):
`buffer->priv_virt = kzalloc(len, GFP_KERNEL)`.  `kz` is the returned block
address (`none` = NULL, yielding -ENOMEM).  On success priv_virt holds the
address of a zeroed len-byte data block: its words (4-byte, 32-bit machine)
inside the block are 0, words beyond it are unrelated memory (`junk`). -/
def ion_system_contig_heap_allocate (kz : Option Nat) (junk : Nat → Nat)
    (len : Nat) : ContigOutcome :=
  match kz with
  | none => { res := .err (-12), acquiredBytes := 0 }
  | some a =>
    { res := .ok ⟨len, a, fun i => if (i + 1) * 4 ≤ len then 0 else junk i⟩,
      acquiredBytes := len }

/-- `ion_system_contig_heap_map_dma` (kmalloc_ops.map_dma): allocates the
sg_table structure (`tableOk`), then a one-entry table (`sgRet` from
`sg_alloc_table(table, 1, GFP_KERNEL)`, freeing the structure on failure),
then sets the single entry to `(virt_to_page(buffer->priv_virt),
buffer->size, 0)`.  `virtToPage` is the (total, lowmem) virt_to_page
translation. -/
def ion_system_contig_heap_map_dma (tableOk : Bool) (sgRet : Int)
    (virtToPage : Nat → Nat) (b : Buffer) : DmaOutcome :=
  if tableOk then
    if sgRet = 0 then
      { res := .ok [⟨virtToPage b.privVirt, b.size, 0⟩],
        trace := [.acqTable, .acqEntries] }
    else { res := .error sgRet, trace := [.acqTable, .relTable] }
  else { res := .error (-12), trace := [] }

/-! ### Arithmetic facts about the embedding -/

/-- n_pages never reaches 2^20, so `n_pages << PAGE_SHIFT` stays below 2^32:
the guard of map_user compares exactly `n_pages * PAGE_SIZE`. -/
theorem nPages_lt (size : Nat) : nPages size < 2 ^ 20 := by
  have h1 : (size + (PAGE_SIZE - 1)) % U32 < U32 := Nat.mod_lt _ (by decide)
  have h2 : (size + (PAGE_SIZE - 1)) % U32 < 2 ^ 20 * PAGE_SIZE := by
    calc (size + (PAGE_SIZE - 1)) % U32 < U32 := h1
    _ ≤ 2 ^ 20 * PAGE_SIZE := by decide
  exact Nat.div_lt_of_lt_mul (by simpa [Nat.mul_comm] using h2)

/-- When `size + PAGE_SIZE - 1` stays below 2^32, the page-count computation
does not wrap and equals the usual ceiling division. -/
theorem nPages_eq_ceil (size : Nat) (h : size + PAGE_SIZE ≤ U32) :
    nPages size = (size + (PAGE_SIZE - 1)) / PAGE_SIZE := by
  unfold nPages
  rw [Nat.mod_eq_of_lt]
  simp only [PAGE_SIZE, U32] at h ⊢
  omega

/-! ### Behavior of the page acquisition loop -/

/-- If `alloc_page` succeeds for indices below `i` and returns NULL at `i < k`,
the loop stops at `i`, having acquired exactly the pages of indices below `i`
in order. -/
theorem allocPages_fail (f : Nat → Option Nat) :
    ∀ (i k start : Nat), i < k →
      (∀ j, j < i → (f (start + j)).isSome = true) →
      f (start + i) = none →
      allocPages f k start =
        ((List.range i).filterMap (fun j => f (start + j)), some (start + i)) := by
  intro i
  induction i with
  | zero =>
    intro k start hk _ hf
    match k, hk with
    | k + 1, _ =>
      rw [Nat.add_zero] at hf
      simp [allocPages, hf]
  | succ i ih =>
    intro k start hk h2 hf
    match k, hk with
    | k + 1, hk =>
      have h0 : (f (start + 0)).isSome = true := h2 0 (Nat.succ_pos i)
      rw [Nat.add_zero] at h0
      obtain ⟨p, hp⟩ := Option.isSome_iff_exists.mp h0
      have hshift : ∀ j : Nat, start + 1 + j = start + (j + 1) := fun j => by omega
      have ih' := ih k (start + 1) (Nat.lt_of_succ_lt_succ hk)
        (fun j hj => by rw [hshift]; exact h2 (j + 1) (Nat.succ_lt_succ hj))
        (by rw [hshift]; exact hf)
      have hp0 : f (start + 0) = some p := by rw [Nat.add_zero]; exact hp
      simp only [allocPages, hp, ih']
      simp [List.range_succ_eq_map, List.filterMap_cons, hp0, hp,
        List.filterMap_map, Function.comp, Nat.succ_eq_add_one, hshift]
      rfl

/-- If the loop completed (no NULL), it acquired exactly one page per index. -/
theorem allocPages_done_length (f : Nat → Option Nat) :
    ∀ (k start : Nat), (allocPages f k start).2 = none →
      (allocPages f k start).1.length = k := by
  intro k
  induction k with
  | zero => intro start _; rfl
  | succ k ih =>
    intro start hdone
    cases hp : f start with
    | none => simp [allocPages, hp] at hdone
    | some p =>
      simp only [allocPages, hp] at hdone ⊢
      simp [ih (start + 1) hdone]

/-- Reading a list back element by element reproduces the list. -/
theorem map_getD_range (ps : List Nat) :
    (List.range ps.length).map (fun i => ps.getD i 0) = ps := by
  induction ps with
  | nil => simp
  | cons a l ih =>
    rw [List.length_cons, List.range_succ_eq_map, List.map_cons, List.map_map]
    simp only [List.getD_cons_zero, Function.comp, List.getD_cons_succ]
    rw [List.cons_inj_right]
    exact ih

/-! ### Behavior of the map_user do-while loop -/

/-- The loop never changes its list index: every recorded `vm_insert_page`
attempt reads `page_list[i]` at the index the loop started with (the source
declares `i`, sets it to 0 and never increments it). -/
theorem mapUserLoop_idx (f : Nat → Int) (w : Nat → Nat) :
    ∀ (fuel i uaddr usize k : Nat) (e : Nat × Nat × Nat),
      e ∈ (mapUserLoop f w fuel i uaddr usize k).1 → e.1 = i := by
  intro fuel
  induction fuel with
  | zero =>
    intro i uaddr usize k e he
    simp [mapUserLoop] at he
  | succ fuel ih =>
    intro i uaddr usize k e he
    simp only [mapUserLoop] at he
    by_cases hf : f k = 0
    · simp only [if_pos hf] at he
      by_cases hu : 0 < (usize + (U32 - PAGE_SIZE)) % U32
      · simp only [if_pos hu, List.mem_cons] at he
        rcases he with he | he
        · rw [he]
        · exact ih i _ _ _ e he
      · simp only [if_neg hu, List.mem_singleton] at he
        rw [he]
    · simp only [if_neg hf, List.mem_singleton] at he
      rw [he]

/-- The 32-bit decrement `usize -= PAGE_SIZE` preserves `usize mod PAGE_SIZE`. -/
theorem usize_step_mod (usize : Nat) :
    ((usize + (U32 - PAGE_SIZE)) % U32) % PAGE_SIZE = usize % PAGE_SIZE := by
  rw [Nat.mod_mod_of_dvd _ (by decide : PAGE_SIZE ∣ U32), Nat.add_mod]
  norm_num [PAGE_SIZE, U32]

/-- If the initial length is not a multiple of PAGE_SIZE, the decremented
counter never reaches 0, so the loop never exits with success: it either
propagates an insertion error or is still running when the fuel ends. -/
theorem mapUserLoop_no_ok (f : Nat → Int) (w : Nat → Nat) :
    ∀ (fuel i uaddr usize k : Nat), usize % PAGE_SIZE ≠ 0 →
      (mapUserLoop f w fuel i uaddr usize k).2 ≠ .ok := by
  intro fuel
  induction fuel with
  | zero =>
    intro i uaddr usize k _
    simp [mapUserLoop]
  | succ fuel ih =>
    intro i uaddr usize k h
    have hmod : ((usize + (U32 - PAGE_SIZE)) % U32) % PAGE_SIZE ≠ 0 := by
      rw [usize_step_mod]; exact h
    have hpos : 0 < (usize + (U32 - PAGE_SIZE)) % U32 :=
      Nat.pos_of_ne_zero (fun h0 => hmod (by rw [h0]; rfl))
    by_cases hf : f k = 0
    · simp only [mapUserLoop, if_pos hf, if_pos hpos]
      exact ih i _ _ _ hmod
    · simp [mapUserLoop, if_neg hf]

/-- The body runs before the test: with any fuel at all, at least one
`vm_insert_page` attempt is recorded, whatever the remaining length is
(in particular for a zero-length range). -/
theorem mapUserLoop_ne_nil (f : Nat → Int) (w : Nat → Nat)
    (fuel i uaddr usize k : Nat) (h : 0 < fuel) :
    (mapUserLoop f w fuel i uaddr usize k).1 ≠ [] := by
  match fuel, h with
  | fuel + 1, _ =>
    by_cases hf : f k = 0
    · by_cases hu : 0 < (usize + (U32 - PAGE_SIZE)) % U32
      · simp [mapUserLoop, if_pos hf, if_pos hu]
      · simp [mapUserLoop, if_pos hf, if_neg hu]
    · simp [mapUserLoop, if_neg hf]

/-- A successful entry-building walk emits exactly one entry per page. -/
theorem dmaEntries_some_length (v2p : Nat → Option Nat) :
    ∀ (n vaddr : Nat) (es : List SgEntry),
      dmaEntries v2p vaddr n = some es → es.length = n := by
  intro n
  induction n with
  | zero =>
    intro vaddr es h
    simp only [dmaEntries, Option.some.injEq] at h
    rw [← h]
    rfl
  | succ n ih =>
    intro vaddr es h
    simp only [dmaEntries] at h
    cases hv : v2p (vaddr % U32) with
    | none => rw [hv] at h; exact Option.noConfusion h
    | some p =>
      rw [hv] at h
      cases hd : dmaEntries v2p (vaddr + PAGE_SIZE) n with
      | none => rw [hd] at h; exact Option.noConfusion h
      | some es2 =>
        rw [hd] at h
        simp only [Option.some.injEq] at h
        rw [← h, List.length_cons, ih (vaddr + PAGE_SIZE) es2 hd]

/-- A successful map_dma result has exactly n_pages entries: the entry count
comes from the same PAGE_ALIGN(buffer->size)/PAGE_SIZE computation as the
other operations. -/
theorem map_dma_ok_length (tOk : Bool) (sgRet : Int) (v2p : Nat → Option Nat)
    (b : Buffer) (es : List SgEntry)
    (h : (ion_system_heap_map_dma tOk sgRet v2p b).res = .ok es) :
    es.length = nPages b.size := by
  by_cases ht : tOk
  · by_cases hs : sgRet = 0
    · rcases hE : dmaEntries v2p b.privVirt (nPages b.size) with _ | es2
      · simp [ion_system_heap_map_dma, ht, hs, hE] at h
      · simp only [ion_system_heap_map_dma, if_pos ht, if_pos hs, hE,
          DmaRes.ok.injEq] at h
        rw [← h]
        exact dmaEntries_some_length v2p (nPages b.size) b.privVirt es2 hE
    · simp [ion_system_heap_map_dma, ht, hs] at h
  · simp [ion_system_heap_map_dma, ht] at h

/-- map_user answers the bare -EINVAL rejection exactly when the range
length exceeds n_pages * PAGE_SIZE: the guard bound comes from the same
PAGE_ALIGN(buffer->size)/PAGE_SIZE computation as the other operations
(inside the loop, any fuel records at least one attempt, and exhausted fuel
reports `running`, so the loop never reproduces the rejection pair). -/
theorem map_user_einval_iff (f : Nat → Int) (b : Buffer)
    (uaddr usize fuel : Nat) :
    ion_system_heap_map_user f b uaddr usize fuel = ([], .err (-22))
      ↔ nPages b.size * PAGE_SIZE < usize := by
  by_cases hgt : nPages b.size * PAGE_SIZE < usize
  · simp [ion_system_heap_map_user, hgt]
  · simp only [ion_system_heap_map_user, if_neg hgt]
    constructor
    · intro heq
      exfalso
      cases fuel with
      | zero =>
        have h2 := congrArg Prod.snd heq
        simp [mapUserLoop] at h2
      | succ n =>
        exact mapUserLoop_ne_nil f b.privWords (n + 1) 0 uaddr usize 0
          (Nat.succ_pos n) (congrArg Prod.fst heq)
    · intro h
      exact absurd h hgt

/-! ### Claim theorems -/

/-- Claim C1: the claim says the page inserted at offset k*PAGE_SIZE is
backing page k.  The source never increments the loop index, so on a 2-page
buffer (backing pages 101 and 102) with a destination range of exactly
2*PAGE_SIZE it inserts backing page 0 (101) at both offsets 65536 and
65536+4096; backing page 1 (102) is never inserted. -/
theorem C1_map_user_repeats_first_page :
    ion_system_heap_map_user (fun _ => 0)
        ⟨8192, 5000, fun i => [101, 102].getD i 0⟩ 65536 8192 4
      = ([(0, 65536, 101), (0, 69632, 101)], .ok) := by
  decide

/-- Claim C2: if the slot array was obtained and page acquisition fails at
index i < n, allocate returns -ENOMEM, frees the slot array, releases
exactly the pages acquired for indices below i (in reverse order), and no
acquired page remains held. -/
theorem C2_allocate_rolls_back (size a : Nat) (allocPage : Nat → Option Nat)
    (i : Nat) (h1 : i < nPages size)
    (h2 : ∀ j, j < i → (allocPage j).isSome = true)
    (h3 : allocPage i = none) :
    (ion_system_heap_allocate (some a) allocPage size).res = .err (-12)
    ∧ (ion_system_heap_allocate (some a) allocPage size).slotFreed = true
    ∧ (ion_system_heap_allocate (some a) allocPage size).freedPages
        = (ion_system_heap_allocate (some a) allocPage size).acquiredPages.reverse
    ∧ (ion_system_heap_allocate (some a) allocPage size).acquiredPages
        = (List.range i).filterMap allocPage
    ∧ ∀ p ∈ (ion_system_heap_allocate (some a) allocPage size).acquiredPages,
        p ∈ (ion_system_heap_allocate (some a) allocPage size).freedPages := by
  have hAP := allocPages_fail allocPage i (nPages size) 0 h1
    (fun j hj => by simpa using h2 j hj) (by simpa using h3)
  simp only [ion_system_heap_allocate, hAP]
  refine ⟨trivial, trivial, trivial, by simp, ?_⟩
  intro p hp
  exact List.mem_reverse.mpr hp

/-- Witness for C2 at size = 3*PAGE_SIZE with acquisition failing at index 2. -/
theorem C2_allocate_rolls_back_witness :
    2 < nPages 12288
    ∧ (∀ j, j < 2 →
        ((fun j => if j < 2 then some (100 + j) else none) j
          : Option Nat).isSome = true)
    ∧ ((fun j => if j < 2 then some (100 + j) else none) 2 : Option Nat) = none
    ∧ ((ion_system_heap_allocate (some 5000)
          (fun j => if j < 2 then some (100 + j) else none) 12288).res = .err (-12)
      ∧ (ion_system_heap_allocate (some 5000)
          (fun j => if j < 2 then some (100 + j) else none) 12288).slotFreed = true
      ∧ (ion_system_heap_allocate (some 5000)
          (fun j => if j < 2 then some (100 + j) else none) 12288).freedPages
          = (ion_system_heap_allocate (some 5000)
              (fun j => if j < 2 then some (100 + j) else none) 12288).acquiredPages.reverse
      ∧ (ion_system_heap_allocate (some 5000)
          (fun j => if j < 2 then some (100 + j) else none) 12288).acquiredPages
          = (List.range 2).filterMap (fun j => if j < 2 then some (100 + j) else none)
      ∧ ∀ p ∈ (ion_system_heap_allocate (some 5000)
            (fun j => if j < 2 then some (100 + j) else none) 12288).acquiredPages,
          p ∈ (ion_system_heap_allocate (some 5000)
            (fun j => if j < 2 then some (100 + j) else none) 12288).freedPages) :=
  ⟨by decide, by decide, rfl,
    C2_allocate_rolls_back 12288 5000 _ 2 (by decide) (by decide) rfl⟩

/-- Claim C3: the claim says a successful map_to_device yields one entry per
backing page with entry i referencing backing page i.  The source walks
buffer->priv_virt (the kmalloc slot-array pointer written by allocate)
through vmalloc_to_page instead of reading the page list.  On a 3-page
buffer with backing pages 101, 102, 103 and slot array at 5000: under the
real translation (no vmalloc mapping at a kmalloc address) the call fails
with -ENOMEM after releasing the table; and under any translation that does
resolve those addresses the entries reference the translation of 5000,
9096, 13192 — pages of the slot-array storage — never pages 101, 102, 103. -/
theorem C3_map_dma_misreads_backing :
    ion_system_heap_map_dma true 0 (fun _ => none)
        ⟨12288, 5000, fun i => [101, 102, 103].getD i 0⟩
      = { res := .error (-12),
          trace := [.acqTable, .acqEntries, .relEntries, .relTable] }
    ∧ (ion_system_heap_map_dma true 0 (fun v => some (v / PAGE_SIZE + 700))
        ⟨12288, 5000, fun i => [101, 102, 103].getD i 0⟩).res
      = .ok [⟨701, PAGE_SIZE, 0⟩, ⟨702, PAGE_SIZE, 0⟩, ⟨703, PAGE_SIZE, 0⟩] :=
  ⟨by decide, by decide⟩

/-- Claim C4: the claim says map_to_kernel maps the consecutive physical
pages starting at the contiguous block base.  kmalloc_ops reuses
ion_system_heap_map_kernel, which casts priv_virt to a page array: for a
zeroed 8192-byte block at 40960 the request handed to vm_map_ram is the
first two words of the block contents — two null page handles — not the two
pages at the block base. -/
theorem C4_contig_map_kernel_reads_block_words :
    (ion_system_contig_heap_allocate (some 40960) (fun _ => 9) 8192).res
      = .ok ⟨8192, 40960, fun i => if (i + 1) * 4 ≤ 8192 then 0 else 9⟩
    ∧ ion_system_heap_map_kernel_request
        ⟨8192, 40960, fun i => if (i + 1) * 4 ≤ 8192 then 0 else 9⟩
      = ([0, 0], 2) :=
  ⟨rfl, by decide⟩

/-- Claim C5: the claim says a failed slot-array acquisition returns
OutOfMemory and is never dereferenced.  The source never tests the kmalloc
result: for size = PAGE_SIZE with the slot array NULL, the first loop
iteration stores the alloc_page result through the null pointer (fault,
undefined behavior), not an -ENOMEM return. -/
theorem C5_allocate_faults_on_slot_failure :
    (ion_system_heap_allocate none (fun _ => some 7) PAGE_SIZE).res = .fault :=
  rfl

/-- Claim C6: a destination range longer than n_pages * PAGE_SIZE is
rejected with -EINVAL before any vm_insert_page call: the attempt trace is
empty. -/
theorem C6_map_user_rejects_oversize (f : Nat → Int) (b : Buffer)
    (uaddr usize fuel : Nat) (_h1 : usize < U32)
    (h2 : nPages b.size * PAGE_SIZE < usize) :
    ion_system_heap_map_user f b uaddr usize fuel = ([], .err (-22)) := by
  unfold ion_system_heap_map_user
  rw [if_pos h2]

/-- Witness for C6 at a one-page buffer and a range one byte too long. -/
theorem C6_map_user_rejects_oversize_witness :
    4097 < U32 ∧ nPages PAGE_SIZE * PAGE_SIZE < 4097
    ∧ ion_system_heap_map_user (fun _ => 0) ⟨PAGE_SIZE, 5000, fun _ => 0⟩ 0 4097 0
        = ([], .err (-22)) :=
  ⟨by decide, by decide,
    C6_map_user_rejects_oversize _ _ _ _ _ (by decide) (by decide)⟩

/-- Claim C7: for both allocators, whenever map_to_device returns an error
the releases it performed are exactly the acquisitions it performed, in
reverse order (entry table before description structure): no partial
description survives. -/
theorem C7_map_dma_unwinds_on_error (tOk : Bool) (sgRet : Int)
    (v2p : Nat → Option Nat) (b : Buffer) (tOk2 : Bool) (sgRet2 : Int)
    (vtp : Nat → Nat) (b2 : Buffer) :
    ((ion_system_heap_map_dma tOk sgRet v2p b).failed = true →
      relsOf (ion_system_heap_map_dma tOk sgRet v2p b).trace
        = (acqsOf (ion_system_heap_map_dma tOk sgRet v2p b).trace).reverse)
    ∧ ((ion_system_contig_heap_map_dma tOk2 sgRet2 vtp b2).failed = true →
      relsOf (ion_system_contig_heap_map_dma tOk2 sgRet2 vtp b2).trace
        = (acqsOf (ion_system_contig_heap_map_dma tOk2 sgRet2 vtp b2).trace).reverse) := by
  refine ⟨?_, ?_⟩
  · intro hfail
    by_cases ht : tOk
    · by_cases hs : sgRet = 0
      · rcases hE : dmaEntries v2p b.privVirt (nPages b.size) with _ | es
        · simp [ion_system_heap_map_dma, ht, hs, hE, relsOf, acqsOf]
        · simp [ion_system_heap_map_dma, ht, hs, hE, DmaOutcome.failed] at hfail
      · simp [ion_system_heap_map_dma, ht, hs, relsOf, acqsOf]
    · simp [ion_system_heap_map_dma, ht, relsOf, acqsOf]
  · intro hfail
    by_cases ht : tOk2
    · by_cases hs : sgRet2 = 0
      · simp [ion_system_contig_heap_map_dma, ht, hs, DmaOutcome.failed] at hfail
      · simp [ion_system_contig_heap_map_dma, ht, hs, relsOf, acqsOf]
    · simp [ion_system_contig_heap_map_dma, ht, relsOf, acqsOf]

/-- Witness for C7: the system heap failing at the description allocation
and the contig heap failing at the entry-table allocation. -/
theorem C7_map_dma_unwinds_on_error_witness :
    (ion_system_heap_map_dma false 0 (fun _ => none)
        ⟨4096, 5000, fun _ => 0⟩).failed = true
    ∧ relsOf (ion_system_heap_map_dma false 0 (fun _ => none)
          ⟨4096, 5000, fun _ => 0⟩).trace
        = (acqsOf (ion_system_heap_map_dma false 0 (fun _ => none)
          ⟨4096, 5000, fun _ => 0⟩).trace).reverse
    ∧ (ion_system_contig_heap_map_dma true (-12) (fun _ => 0)
        ⟨4096, 6000, fun _ => 0⟩).failed = true
    ∧ relsOf (ion_system_contig_heap_map_dma true (-12) (fun _ => 0)
          ⟨4096, 6000, fun _ => 0⟩).trace
        = (acqsOf (ion_system_contig_heap_map_dma true (-12) (fun _ => 0)
          ⟨4096, 6000, fun _ => 0⟩).trace).reverse :=
  ⟨by decide,
    (C7_map_dma_unwinds_on_error false 0 (fun _ => none) ⟨4096, 5000, fun _ => 0⟩
      true (-12) (fun _ => 0) ⟨4096, 6000, fun _ => 0⟩).1 (by decide),
    by decide,
    (C7_map_dma_unwinds_on_error false 0 (fun _ => none) ⟨4096, 5000, fun _ => 0⟩
      true (-12) (fun _ => 0) ⟨4096, 6000, fun _ => 0⟩).2 (by decide)⟩

/-- Claim C8 counterexample: at size = 2^32 - 1 the 32-bit PAGE_ALIGN
computation wraps to 0, so allocate succeeds having acquired 0 pages while
ceil(size/PAGE_SIZE) = 2^20: the claimed page-count relation fails. -/
theorem C8_pagealign_wrap_counterexample :
    (ion_system_heap_allocate (some 5000) (fun j => some (j + 1)) (2 ^ 32 - 1)).res
      = .ok ⟨2 ^ 32 - 1, 5000, fun i => ([] : List Nat).getD i 0⟩
    ∧ (ion_system_heap_allocate (some 5000) (fun j => some (j + 1))
        (2 ^ 32 - 1)).acquiredPages.length = 0
    ∧ ¬ (ion_system_heap_allocate (some 5000) (fun j => some (j + 1))
        (2 ^ 32 - 1)).acquiredPages.length
          = (2 ^ 32 - 1 + (PAGE_SIZE - 1)) / PAGE_SIZE :=
  ⟨rfl, rfl, by decide⟩

/-- Claim C8 as amended: for 0 < size with size + PAGE_SIZE - 1 below 2^32
(no wrap in the page-count computation), a successful allocate acquires
exactly ceil(size/PAGE_SIZE) pages, and every subsequent operation derives
that same count from the stored size: free releases exactly the acquired
pages, the kernel mapping and unmapping requests carry that count, a
successful map_to_device has exactly that many entries, and map_to_process
enforces exactly that count times PAGE_SIZE as its range bound; a
successful contiguous allocate obtains exactly size bytes and a Buffer of
that size. -/
theorem C8_alloc_count_amended (size a : Nat) (allocPage : Nat → Option Nat)
    (b : Buffer) (kz : Option Nat) (junk : Nat → Nat) (b2 : Buffer)
    (_hpos : 0 < size) (hbound : size + PAGE_SIZE ≤ U32)
    (hok : (ion_system_heap_allocate (some a) allocPage size).res = .ok b)
    (hok2 : (ion_system_contig_heap_allocate kz junk size).res = .ok b2) :
    (ion_system_heap_allocate (some a) allocPage size).acquiredPages.length
        = (size + (PAGE_SIZE - 1)) / PAGE_SIZE
    ∧ ion_system_heap_free b
        = (ion_system_heap_allocate (some a) allocPage size).acquiredPages
    ∧ (ion_system_heap_map_kernel_request b).2
        = (size + (PAGE_SIZE - 1)) / PAGE_SIZE
    ∧ ion_system_heap_unmap_kernel_count b
        = (size + (PAGE_SIZE - 1)) / PAGE_SIZE
    ∧ (∀ (tOk : Bool) (sgRet : Int) (v2p : Nat → Option Nat)
          (es : List SgEntry),
        (ion_system_heap_map_dma tOk sgRet v2p b).res = .ok es →
        es.length = (size + (PAGE_SIZE - 1)) / PAGE_SIZE)
    ∧ (∀ (f : Nat → Int) (uaddr usize fuel : Nat),
        ion_system_heap_map_user f b uaddr usize fuel = ([], .err (-22))
          ↔ (size + (PAGE_SIZE - 1)) / PAGE_SIZE * PAGE_SIZE < usize)
    ∧ b2.size = size
    ∧ (ion_system_contig_heap_allocate kz junk size).acquiredBytes = size := by
  have hceil := nPages_eq_ceil size hbound
  rcases hAP : allocPages allocPage (nPages size) 0 with ⟨ps, fl⟩
  cases fl with
  | some j => simp [ion_system_heap_allocate, hAP] at hok
  | none =>
    have hlen : ps.length = nPages size := by
      have h := allocPages_done_length allocPage (nPages size) 0 (by rw [hAP])
      rwa [hAP] at h
    simp only [ion_system_heap_allocate, hAP, AllocResult.ok.injEq] at hok
    have hbs : b.size = size := by rw [← hok]
    cases kz with
    | none => simp [ion_system_contig_heap_allocate] at hok2
    | some a2 =>
      simp only [ion_system_contig_heap_allocate, AllocResult.ok.injEq] at hok2
      refine ⟨?_, ?_, ?_, ?_, ?_, ?_, ?_, rfl⟩
      · simp only [ion_system_heap_allocate, hAP]
        rw [hlen, hceil]
      · simp only [ion_system_heap_allocate, hAP, ← hok, ion_system_heap_free]
        rw [← hlen]
        exact map_getD_range ps
      · rw [← hok]
        simp only [ion_system_heap_map_kernel_request]
        rw [hceil]
      · rw [← hok]
        simp only [ion_system_heap_unmap_kernel_count]
        rw [hceil]
      · intro tOk sgRet v2p es hdma
        rw [map_dma_ok_length tOk sgRet v2p b es hdma, hbs, hceil]
      · intro f uaddr usize fuel
        rw [map_user_einval_iff, hbs, hceil]
      · rw [← hok2]

/-- Witness for C8 as amended at size = 8193 (3 pages). -/
theorem C8_alloc_count_amended_witness :
    0 < 8193 ∧ 8193 + PAGE_SIZE ≤ U32
    ∧ ((ion_system_heap_allocate (some 5000) (fun j => some (100 + j))
          8193).acquiredPages.length = (8193 + (PAGE_SIZE - 1)) / PAGE_SIZE
      ∧ ion_system_heap_free ⟨8193, 5000, fun i => [100, 101, 102].getD i 0⟩
          = (ion_system_heap_allocate (some 5000) (fun j => some (100 + j))
              8193).acquiredPages
      ∧ (ion_system_heap_map_kernel_request
          ⟨8193, 5000, fun i => [100, 101, 102].getD i 0⟩).2
          = (8193 + (PAGE_SIZE - 1)) / PAGE_SIZE
      ∧ ion_system_heap_unmap_kernel_count
          ⟨8193, 5000, fun i => [100, 101, 102].getD i 0⟩
          = (8193 + (PAGE_SIZE - 1)) / PAGE_SIZE
      ∧ (∀ (tOk : Bool) (sgRet : Int) (v2p : Nat → Option Nat)
            (es : List SgEntry),
          (ion_system_heap_map_dma tOk sgRet v2p
            ⟨8193, 5000, fun i => [100, 101, 102].getD i 0⟩).res = .ok es →
          es.length = (8193 + (PAGE_SIZE - 1)) / PAGE_SIZE)
      ∧ (∀ (f : Nat → Int) (uaddr usize fuel : Nat),
          ion_system_heap_map_user f
              ⟨8193, 5000, fun i => [100, 101, 102].getD i 0⟩ uaddr usize fuel
              = ([], .err (-22))
            ↔ (8193 + (PAGE_SIZE - 1)) / PAGE_SIZE * PAGE_SIZE < usize)
      ∧ (⟨8193, 40960, fun i => if (i + 1) * 4 ≤ 8193 then 0 else 9⟩ : Buffer).size
          = 8193
      ∧ (ion_system_contig_heap_allocate (some 40960) (fun _ => 9)
          8193).acquiredBytes = 8193) :=
  ⟨by decide, by decide,
    C8_alloc_count_amended 8193 5000 (fun j => some (100 + j))
      ⟨8193, 5000, fun i => [100, 101, 102].getD i 0⟩ (some 40960) (fun _ => 9)
      ⟨8193, 40960, fun i => if (i + 1) * 4 ≤ 8193 then 0 else 9⟩
      (by decide) (by decide) rfl rfl⟩

/-- Claim C9 counterexample: on a buffer whose sg_table pointer is null (no
live device view) unmap_from_device releases nothing: the null test before
sg_free_table and the null-tolerant kfree make it an internally detected
no-op, not the unguarded release the claim describes. -/
theorem C9_unmap_guard_counterexample :
    ion_system_heap_unmap_dma none = []
    ∧ ion_system_heap_unmap_dma none ≠ [DmaAct.relEntries, DmaAct.relTable] := by
  decide

/-- Claim C9 as amended: with a non-null description unmap_from_device
releases the entry table and then the description structure; a null
description pointer is internally guarded and the call releases nothing.
(A stale non-null pointer still leads to a double release: only the null
case is guarded.) -/
theorem C9_unmap_dma_amended :
    ion_system_heap_unmap_dma none = []
    ∧ ∀ t : Nat, ion_system_heap_unmap_dma (some t)
        = [DmaAct.relEntries, DmaAct.relTable] :=
  ⟨rfl, fun _ => rfl⟩

/-- Claim C10 counterexample: a 1-page buffer with a 100-byte destination
range passes the bound check, the unsigned counter wraps past zero and the
loop keeps running past the requested range (still `running` after 6
iterations), but every recorded attempt reads list index 0 — in bounds for
the 1-element backing list — because the source never advances the index:
the claimed out-of-bounds indexing does not occur. -/
theorem C10_index_stays_in_bounds_counterexample :
    (ion_system_heap_map_user (fun _ => 0) ⟨4096, 5000, fun i => [101].getD i 0⟩
        65536 100 6).1.map Prod.fst = List.replicate 6 0
    ∧ (ion_system_heap_map_user (fun _ => 0) ⟨4096, 5000, fun i => [101].getD i 0⟩
        65536 100 6).2 = .running
    ∧ 0 < nPages 4096 :=
  ⟨by decide, by decide, by decide⟩

/-- Claim C10 as amended: for an accepted range, the loop body runs before
the remaining-length test (any positive fuel records an attempt, also for a
zero-length range), and a length that is not a multiple of PAGE_SIZE makes
the wrapping counter miss zero, so the loop never exits with success; but
every attempt reads backing-list index 0 — the index never advances, so the
loop does not index the backing page list out of bounds. -/
theorem C10_map_user_loop_amended (f : Nat → Int) (b : Buffer)
    (uaddr usize fuel : Nat) (h : usize ≤ nPages b.size * PAGE_SIZE) :
    (∀ e ∈ (ion_system_heap_map_user f b uaddr usize fuel).1, e.1 = 0)
    ∧ (usize % PAGE_SIZE ≠ 0 →
        (ion_system_heap_map_user f b uaddr usize fuel).2 ≠ .ok)
    ∧ (0 < fuel → (ion_system_heap_map_user f b uaddr usize fuel).1 ≠ []) := by
  unfold ion_system_heap_map_user
  rw [if_neg (Nat.not_lt.mpr h)]
  exact ⟨fun e he => mapUserLoop_idx f b.privWords fuel 0 uaddr usize 0 e he,
    fun hm => mapUserLoop_no_ok f b.privWords fuel 0 uaddr usize 0 hm,
    fun hf => mapUserLoop_ne_nil f b.privWords fuel 0 uaddr usize 0 hf⟩

/-- Witness for C10 as amended on a 1-page buffer with a 100-byte range. -/
theorem C10_map_user_loop_amended_witness :
    100 ≤ nPages 4096 * PAGE_SIZE
    ∧ ((∀ e ∈ (ion_system_heap_map_user (fun _ => 0)
          ⟨4096, 5000, fun i => [101].getD i 0⟩ 65536 100 3).1, e.1 = 0)
      ∧ (100 % PAGE_SIZE ≠ 0 →
          (ion_system_heap_map_user (fun _ => 0)
            ⟨4096, 5000, fun i => [101].getD i 0⟩ 65536 100 3).2 ≠ .ok)
      ∧ (0 < 3 →
          (ion_system_heap_map_user (fun _ => 0)
            ⟨4096, 5000, fun i => [101].getD i 0⟩ 65536 100 3).1 ≠ [])) :=
  ⟨by decide,
    C10_map_user_loop_amended (fun _ => 0) ⟨4096, 5000, fun i => [101].getD i 0⟩
      65536 100 3 (by decide)⟩

end Ion
